import Mathlib

/-!
A shallow embedding of the dota-draft harvesting pipeline
(src/bin/dota2api/_database.py and src/bin/dota2api/_interface.py),
with theorems checking the natural-language specification against it.

Python integers are modelled as Lean Int, optional (possibly-None) values
as Option, JSON dictionaries as structures whose fields are Option when the
key may be absent, and the SQLite tables as lists of typed rows.  SQLite
statement semantics used by the code (INSERT OR REPLACE with PRAGMA
foreign_keys = 1, ON DELETE CASCADE firing when a parent row is deleted by
REPLACE conflict resolution, and the ascending (match_id, hero) index-scan
order of the get_drafts join) are modelled explicitly.
-/

namespace DotaDraft

/-- A match record as assembled by API._parse_match and consumed by
Database.commit_game: the keys of the match_details dictionary. -/
structure Game where
  match_id : Int
  match_time : Int
  winner : Int
  duration : Int
  radiant_score : Int
  dire_score : Int
  skill : Int
  region : Int
  radiant_picks : List Int
  dire_picks : List Int
  salt : Option Int
  replay : Option String
  throw : Option Int
  loss : Option Int
  deriving DecidableEq, Repr

/-- Database._valid_game (src/bin/dota2api/_database.py lines 82-133),
condition for condition.  Type tags are carried by the Lean types, so the
Python `type(x) != int` checks hold by construction; the range checks are
transcribed literally, each early `return False` rendered as a negated
conjunct in source order.  Note line 101 rejects skill < 1 or skill > 3. -/
def validGame (g : Game) : Bool :=
  !decide (g.match_id < 0) &&
  !decide (g.match_time < 0) &&
  !decide (g.winner ≠ 0 ∧ g.winner ≠ 1) &&
  !decide (g.duration ≤ 0) &&
  !decide (g.radiant_score < 0) &&
  !decide (g.dire_score < 0) &&
  !decide (g.skill < 1 ∨ g.skill > 3) &&
  !decide (g.region < 0) &&
  !decide (g.radiant_picks.length ≠ 5) &&
  !(g.radiant_picks.any (fun i => decide (i < 0 ∨ i > 130))) &&
  !decide (g.dire_picks.length ≠ 5) &&
  !(g.dire_picks.any (fun i => decide (i < 0 ∨ i > 130))) &&
  !(match g.replay with
    | some s => !decide (s.take 4 = "http")
    | none => false)

/-- The §3 MatchRecord validity constraints, written from the spec's words
(for comparison with validGame): in particular skill ∈ {0,1,2,3} with
0 meaning unknown/unspecified. -/
def specMatchRecordOK (g : Game) : Bool :=
  decide (0 ≤ g.match_id) && decide (0 ≤ g.match_time) &&
  decide (g.winner = 0 ∨ g.winner = 1) && decide (0 < g.duration) &&
  decide (0 ≤ g.radiant_score) && decide (0 ≤ g.dire_score) &&
  decide (0 ≤ g.skill ∧ g.skill ≤ 3) && decide (0 ≤ g.region) &&
  decide (g.radiant_picks.length = 5) &&
  g.radiant_picks.all (fun i => decide (0 ≤ i ∧ i ≤ 130)) &&
  decide (g.dire_picks.length = 5) &&
  g.dire_picks.all (fun i => decide (0 ≤ i ∧ i ≤ 130)) &&
  (match g.replay with
   | some s => decide (s.take 4 = "http")
   | none => true) &&
  decide (g.salt.isSome = g.replay.isSome) &&
  decide (g.throw.isSome = g.replay.isSome) &&
  decide (g.loss.isSome = g.replay.isSome)

/-- A row of the match_info table (schema in Database._load_database). -/
structure MatchRow where
  match_id : Int
  match_time : Int
  winner : Int
  duration : Int
  r_score : Int
  d_score : Int
  skill : Int
  region : Int
  salt : Option Int
  replay : Option String
  throw : Option Int
  loss : Option Int
  deriving DecidableEq, Repr

/-- A row of the hero_picks table: PRIMARY KEY (match_id, hero). -/
structure PickRow where
  match_id : Int
  team : Int
  hero : Int
  deriving DecidableEq, Repr

/-- The relational store: the two tables created by _load_database. -/
structure Store where
  match_info : List MatchRow
  hero_picks : List PickRow
  deriving DecidableEq, Repr

def emptyStore : Store := ⟨[], []⟩

/-- INSERT OR REPLACE INTO match_info: the conflicting row (same primary
key match_id) is deleted, the new row inserted. -/
def insertOrReplaceMatch (ms : List MatchRow) (r : MatchRow) : List MatchRow :=
  ms.filter (fun m => decide (m.match_id ≠ r.match_id)) ++ [r]

/-- INSERT OR REPLACE INTO hero_picks: the conflicting row (same primary
key (match_id, hero)) is deleted, the new row inserted. -/
def insertOrReplacePick (ps : List PickRow) (r : PickRow) : List PickRow :=
  ps.filter (fun p => decide (¬ (p.match_id = r.match_id ∧ p.hero = r.hero))) ++ [r]

/-- The match_info row written by commit_game's INSERT OR REPLACE. -/
def rowOfGame (g : Game) : MatchRow :=
  ⟨g.match_id, g.match_time, g.winner, g.duration, g.radiant_score,
   g.dire_score, g.skill, g.region, g.salt, g.replay, g.throw, g.loss⟩

/-- Database.commit_game (lines 183-216): validate, then in one
transaction REPLACE the match row and the ten pick rows — dire picks with
team 0 first, then radiant picks with team 1.  With PRAGMA foreign_keys = 1
the REPLACE of an existing match_info parent row deletes it, and the
ON DELETE CASCADE clause of hero_picks then deletes that match's old pick
rows before the new ones are inserted. -/
def commitGame (st : Store) (g : Game) : Store × Bool :=
  if ¬ validGame g then (st, false)
  else
    let picks0 :=
      if st.match_info.any (fun m => decide (m.match_id = g.match_id)) then
        st.hero_picks.filter (fun p => decide (p.match_id ≠ g.match_id))
      else st.hero_picks
    let ms := insertOrReplaceMatch st.match_info (rowOfGame g)
    let ps1 := g.dire_picks.foldl
      (fun ps h => insertOrReplacePick ps ⟨g.match_id, 0, h⟩) picks0
    let ps2 := g.radiant_picks.foldl
      (fun ps h => insertOrReplacePick ps ⟨g.match_id, 1, h⟩) ps1
    (⟨ms, ps2⟩, true)

/-- The hero_picks rows of one match. -/
def rowsFor (st : Store) (id : Int) : List PickRow :=
  st.hero_picks.filter (fun p => decide (p.match_id = id))

/-- Number of hero_picks rows for a match. -/
def pickCount (st : Store) (id : Int) : Nat := (rowsFor st id).length

/-- Number of hero_picks rows for a match on a given team. -/
def teamCount (st : Store) (id t : Int) : Nat :=
  ((rowsFor st id).filter (fun p => decide (p.team = t))).length

/-- Number of match_info rows with a given match_id. -/
def matchRowCount (st : Store) (id : Int) : Nat :=
  (st.match_info.filter (fun m => decide (m.match_id = id))).length

/-- A fully §3-valid record whose skill bracket is 0 (unknown), exactly
what _parse_match produces for a match whose skill field is null. -/
def skillZeroGame : Game :=
  { match_id := 7, match_time := 100, winner := 1, duration := 1800,
    radiant_score := 20, dire_score := 15, skill := 0, region := 3,
    radiant_picks := [1, 2, 3, 4, 5], dire_picks := [6, 7, 8, 9, 10],
    salt := none, replay := none, throw := none, loss := none }

end DotaDraft

/-- C1: the spec (§3, §4.7, §8) requires a record that is valid in every
other respect and has skill = 0 (unknown bracket) to pass validation and
be persisted by commit_game; the code's _valid_game (line 101,
skill < 1 or skill > 3) rejects it, so commit_game returns false and
leaves the store untouched — while the spec-side §3 constraints hold of
the record.  This evaluates the code at the failing input. -/
theorem C1_skill_zero_rejected :
    DotaDraft.specMatchRecordOK DotaDraft.skillZeroGame = true ∧
    DotaDraft.skillZeroGame.skill = 0 ∧
    DotaDraft.validGame DotaDraft.skillZeroGame = false ∧
    DotaDraft.commitGame DotaDraft.emptyStore DotaDraft.skillZeroGame =
      (DotaDraft.emptyStore, false) := by
  decide

namespace DotaDraft

/-- self.wait_increment = 20 (API.__init__, src/bin/dota2api/_interface.py). -/
def waitIncrement : Nat := 20

/-- self.dota_api_timers as initialized in API.__init__ (lines 32-41).
Note there is no "full_queue_warning" key. -/
def dotaApiTimers : List (String × Nat) :=
  [("last_request", 0), ("wait_seconds", 5), ("rate_limit_wait", 30),
   ("rate_limit_wait_base", 30), ("empty_wait_seconds", 30),
   ("queue_warning", 600), ("continued_error_sleep", 600), ("heartbeat", 0)]

/-- Dictionary subscript timers[key]: some value, or none (KeyError). -/
def timersLookup (timers : List (String × Nat)) (key : String) : Option Nat :=
  (timers.find? (fun kv => kv.1 == key)).map (fun kv => kv.2)

/-- The per-ID enqueue loop of API._get_matches (lines 200-207): put with a
queue_warning timeout; on TimeoutError the handler formats a warning from
dota_api_timers["full_queue_warning"] and retries.  fullFor is the number
of consecutive timeouts before the queue accepts the put.  A missing key
raises KeyError out of the handler. -/
def putWithWarn : Nat → Except String Unit
  | 0 => .ok ()
  | n + 1 =>
    match timersLookup dotaApiTimers "full_queue_warning" with
    | some _ => putWithWarn n
    | none => .error "KeyError"

/-- The enqueue of all surviving IDs of a batch (for i in valid_matches);
an exception escaping putWithWarn aborts the whole batch (it is caught by
the worker's outer BaseException handler).  Returns the IDs actually
enqueued and the escaped exception, if any. -/
def enqueueBatch (fullFor : Nat → Nat) : List Nat → List Nat × Option String
  | [] => ([], none)
  | i :: rest =>
    match putWithWarn (fullFor i) with
    | .ok _ =>
      let r := enqueueBatch fullFor rest
      (i :: r.1, r.2)
    | .error e => ([], some e)

/-- "rate_limit_wait_base" of self.dota_api_timers. -/
def dotaRateLimitBase : Nat := 30

/-- "rate_limit_wait_base" of self.open_api_timers. -/
def oapiRateLimitBase : Nat := 30

/-- Initial "rate_limit_wait" of self.dota_api_timers. -/
def dotaInitialWait : Nat := 30

/-- Initial "rate_limit_wait" of self.open_api_timers. -/
def oapiInitialWait : Nat := 30

/-- "404_sleep" of self.open_api_timers. -/
def oapi404Sleep : Nat := 60

/-- timers["rate_limit_wait"] += self.wait_increment. -/
def incWait (w : Nat) : Nat := w + waitIncrement

/-- timers["rate_limit_wait"] = max(base, timers["rate_limit_wait"] - increment). -/
def decWait (base w : Nat) : Nat := max base (w - waitIncrement)

/-- The retry for-loop of API._get_matches_info (lines 320-340) for one
match ID.  statuses lists the HTTP status of each attempt; retries is the
loop bound (max_retry); w the current shared rate_limit_wait.  Returns
(1-based attempt number of the first 200, if any; rate_limit_wait at loop
exit; the sleeps performed): a 404 sleeps the fixed 404_sleep, a 429 or any
other non-200 sleeps the current rate_limit_wait, and EVERY non-200 branch
then executes rate_limit_wait += wait_increment (line 337). -/
def oapiRetryLoop : List Nat → Nat → Nat → Option Nat × Nat × List Nat
  | _, 0, w => (none, w, [])
  | [], _ + 1, w => (none, w, [])
  | s :: rest, n + 1, w =>
    if s = 200 then (some 1, w, [])
    else
      let sleep := if s = 404 then oapi404Sleep else w
      let r := oapiRetryLoop rest n (incWait w)
      (r.1.map (fun a => a + 1), r.2.1, sleep :: r.2.2)

/-- One enrichment job (lines 320-345): run the retry loop; if it broke
out on a 200, line 345 decrements the shared wait, clamped at the base;
if it exhausted max_retry, the ID is skipped with no decrement. -/
def oapiJob (statuses : List Nat) (maxRetry w : Nat) : Option Nat × Nat × List Nat :=
  match oapiRetryLoop statuses maxRetry w with
  | (some a, w', sleeps) => (some a, decWait oapiRateLimitBase w', sleeps)
  | (none, w', sleeps) => (none, w', sleeps)

end DotaDraft

/-- C2: the spec says that when the feed-to-enrichment queue stays full
beyond the liveness timeout the poller logs a warning and retries the same
put, never dropping a discovered ID.  The code's TimeoutError handler
(line 204) subscripts dota_api_timers["full_queue_warning"], a key that
does not exist (the dict defines "queue_warning"), so the first timeout
raises KeyError, which escapes to the outer BaseException handler: the
batch is aborted and its remaining IDs are dropped.  Here a batch
[101, 102] whose first put times out once enqueues nothing at all, while
with no timeout both IDs are enqueued. -/
theorem C2_full_queue_handler_raises :
    DotaDraft.timersLookup DotaDraft.dotaApiTimers "full_queue_warning" = none ∧
    DotaDraft.timersLookup DotaDraft.dotaApiTimers "queue_warning" = some 600 ∧
    DotaDraft.enqueueBatch (fun i => if i == 101 then 1 else 0) [101, 102] =
      ([], some "KeyError") ∧
    DotaDraft.enqueueBatch (fun _ => 0) [101, 102] = ([101, 102], none) := by
  decide

/-- C3 counterexample: the spec's own scenario (three 404s then a 200,
max_retry = 5, rate_limit_wait at its base 30).  The job does succeed on
the fourth attempt after three fixed 404 cooldowns, but the shared
rate_limit_wait afterwards is 70, not ≤ its value 30 before the 404s:
line 337 grows the backoff on 404 like any other failure. -/
theorem C3_counterexample_404_grows_backoff :
    DotaDraft.oapiJob [404, 404, 404, 200] 5 30 =
      (some 4, 70, [60, 60, 60]) ∧ ¬ (70 ≤ 30) := by
  decide

namespace DotaDraft

/-- Running the enrichment retry loop on k consecutive 404s followed by a
200, with retries to spare: the 200 is reached on attempt k+1, each 404
slept the fixed 404 cooldown, and each 404 added wait_increment to the
shared rate_limit_wait. -/
theorem oapiRetryLoop_replicate_404 (k : Nat) :
    ∀ (m w : Nat), k < m →
      oapiRetryLoop (List.replicate k 404 ++ [200]) m w =
        (some (k + 1), w + k * waitIncrement, List.replicate k oapi404Sleep) := by
  induction k with
  | zero =>
    intro m w hm
    match m, hm with
    | n + 1, _ => simp [oapiRetryLoop]
  | succ k ih =>
    intro m w hm
    match m, hm with
    | n + 1, hm =>
      have hk : k < n := by omega
      simp only [List.replicate_succ, List.cons_append, oapiRetryLoop]
      rw [if_neg (by omega)]
      simp only [List.append_eq]
      rw [ih n (incWait w) hk]
      simp [incWait, oapi404Sleep, List.replicate_succ]
      ring

end DotaDraft

/-- C3 (amended): in the enrichment fetcher an HTTP 404 triggers a retry
of the same match ID after the fixed longer 404 cooldown (404_sleep = 60),
and for a match ID receiving k ≥ 1 consecutive 404s followed by a 200 the
job succeeds on attempt k+1 whenever k+1 ≤ max_retry — but, contrary to
the original claim, each 404 grows the shared rate_limit_wait by
wait_increment exactly like the other failures, so after the success
decrement the backoff is max(rate_limit_wait_base,
before + k·wait_increment − wait_increment), a net growth of
(k−1)·wait_increment. -/
theorem C3_404_retry_and_backoff (k w m : Nat) (hk : 0 < k) (hm : k + 1 ≤ m) :
    (DotaDraft.oapiJob (List.replicate k 404 ++ [200]) m w).1 = some (k + 1) ∧
    (DotaDraft.oapiJob (List.replicate k 404 ++ [200]) m w).2.1 =
      max DotaDraft.oapiRateLimitBase
        (w + k * DotaDraft.waitIncrement - DotaDraft.waitIncrement) ∧
    (DotaDraft.oapiJob (List.replicate k 404 ++ [200]) m w).2.2 =
      List.replicate k DotaDraft.oapi404Sleep := by
  have h := DotaDraft.oapiRetryLoop_replicate_404 k m w (by omega)
  simp [DotaDraft.oapiJob, h, DotaDraft.decWait]

/-- C3 witness: the amended theorem at the spec's own scenario, k = 3
404s then a 200 with max_retry = 5 and the backoff at its base 30. -/
theorem C3_404_retry_and_backoff_witness :
    (DotaDraft.oapiJob (List.replicate 3 404 ++ [200]) 5 30).1 = some 4 ∧
    (DotaDraft.oapiJob (List.replicate 3 404 ++ [200]) 5 30).2.1 =
      max DotaDraft.oapiRateLimitBase
        (30 + 3 * DotaDraft.waitIncrement - DotaDraft.waitIncrement) ∧
    (DotaDraft.oapiJob (List.replicate 3 404 ++ [200]) 5 30).2.2 =
      List.replicate 3 DotaDraft.oapi404Sleep :=
  C3_404_retry_and_backoff 3 30 5 (by decide) (by decide)

namespace DotaDraft

/-- State of the feed poller touched by one attempt of the retry loop in
API._get_matches: the seq_from cursor and the endpoint's rate_limit_wait. -/
structure DotaPoll where
  seqFrom : Nat
  rlw : Nat
  deriving DecidableEq, Repr

/-- matches_requested = 100 (line 150). -/
def dotaRequested : Nat := 100

inductive DotaOutcome
  | success
  | retry
  | empty
  deriving DecidableEq, Repr

/-- One attempt of the retry for-loop of API._get_matches (lines 156-186):
non-200 grows rate_limit_wait and retries; 200 with results advances
seq_from by min(num_results, requested) and breaks; 200 with zero results
sleeps the caught-up interval and retries with everything unchanged. -/
def dotaAttempt (st : DotaPoll) (status numResults : Nat) : DotaPoll × DotaOutcome :=
  if status ≠ 200 then ({ st with rlw := incWait st.rlw }, .retry)
  else if 0 < numResults then
    ({ st with seqFrom := st.seqFrom + min numResults dotaRequested }, .success)
  else (st, .empty)

/-- Line 196, executed only after the retry loop broke out on success:
rate_limit_wait = max(rate_limit_wait_base, rate_limit_wait - increment). -/
def dotaAfterSuccess (st : DotaPoll) : DotaPoll :=
  { st with rlw := decWait dotaRateLimitBase st.rlw }

/-- The retry for-loop: up to `retries` attempts, each consuming one
response (status, num_results); stops early on success. -/
def dotaRunAttempts : DotaPoll → List (Nat × Nat) → Nat → DotaPoll × Bool
  | st, _, 0 => (st, false)
  | st, [], _ + 1 => (st, false)
  | st, r :: rest, n + 1 =>
    match dotaAttempt st r.1 r.2 with
    | (st', .success) => (st', true)
    | (st', _) => dotaRunAttempts st' rest n

/-- One iteration of the outer while-loop of API._get_matches: the retry
loop, then on success the backoff decrement (the exhausted case sleeps
continued_error_sleep and continues with the state as is). -/
def dotaIteration (maxRetry : Nat) (st : DotaPoll) (responses : List (Nat × Nat)) :
    DotaPoll :=
  match dotaRunAttempts st responses maxRetry with
  | (st', true) => dotaAfterSuccess st'
  | (st', false) => st'

/-- A whole run of the feed poller: a list of iterations, each with its
own response trace. -/
def dotaRun (maxRetry : Nat) (st : DotaPoll) (iters : List (List (Nat × Nat))) :
    DotaPoll :=
  iters.foldl (dotaIteration maxRetry) st

theorem dotaAttempt_seqFrom_mono (st : DotaPoll) (status numResults : Nat) :
    st.seqFrom ≤ ((dotaAttempt st status numResults).1).seqFrom := by
  unfold dotaAttempt
  split
  · simp
  · split <;> simp

theorem dotaRunAttempts_seqFrom_mono :
    ∀ (rs : List (Nat × Nat)) (st : DotaPoll) (n : Nat),
      st.seqFrom ≤ ((dotaRunAttempts st rs n).1).seqFrom := by
  intro rs
  induction rs with
  | nil => intro st n; cases n <;> simp [dotaRunAttempts]
  | cons r rest ih =>
    intro st n
    cases n with
    | zero => simp [dotaRunAttempts]
    | succ n =>
      have h1 := dotaAttempt_seqFrom_mono st r.1 r.2
      unfold dotaRunAttempts
      cases ha : dotaAttempt st r.1 r.2 with
      | mk st' out =>
        rw [ha] at h1
        cases out with
        | success => exact h1
        | retry => exact le_trans h1 (ih st' n)
        | empty => exact le_trans h1 (ih st' n)

theorem dotaIteration_seqFrom_mono (m : Nat) (st : DotaPoll)
    (rs : List (Nat × Nat)) : st.seqFrom ≤ (dotaIteration m st rs).seqFrom := by
  unfold dotaIteration
  have h := dotaRunAttempts_seqFrom_mono rs st m
  cases hr : dotaRunAttempts st rs m with
  | mk st' ok =>
    rw [hr] at h
    cases ok <;> simpa [dotaAfterSuccess, decWait] using h

end DotaDraft

/-- C5: the seq_from cursor is monotonically non-decreasing across all
iterations of the feed poller loop; a 200 response with n > 0 results
(requested = 100) advances it by exactly min(n, 100); every other attempt
outcome, and the post-success backoff decrement, leaves it unchanged. -/
theorem C5_seq_from_cursor (st : DotaDraft.DotaPoll) (status n : Nat) :
    (status = 200 → 0 < n →
      ((DotaDraft.dotaAttempt st status n).1).seqFrom =
        st.seqFrom + min n DotaDraft.dotaRequested) ∧
    (¬ (status = 200 ∧ 0 < n) →
      ((DotaDraft.dotaAttempt st status n).1).seqFrom = st.seqFrom) ∧
    st.seqFrom ≤ ((DotaDraft.dotaAttempt st status n).1).seqFrom ∧
    (DotaDraft.dotaAfterSuccess st).seqFrom = st.seqFrom ∧
    ∀ (m : Nat) (iters : List (List (Nat × Nat))),
      st.seqFrom ≤ (DotaDraft.dotaRun m st iters).seqFrom := by
  refine ⟨?_, ?_, DotaDraft.dotaAttempt_seqFrom_mono st status n, rfl, ?_⟩
  · intro h200 hn
    simp [DotaDraft.dotaAttempt, h200, hn]
  · intro hno
    unfold DotaDraft.dotaAttempt
    split
    · simp
    · split
      · rename_i hs hpos
        exact absurd ⟨by omega, hpos⟩ hno
      · simp
  · intro m iters
    induction iters generalizing st with
    | nil => simp [DotaDraft.dotaRun]
    | cons it rest ih =>
      calc st.seqFrom ≤ (DotaDraft.dotaIteration m st it).seqFrom :=
            DotaDraft.dotaIteration_seqFrom_mono m st it
        _ ≤ _ := ih (DotaDraft.dotaIteration m st it)

/-- C5 witness: a concrete 200 response with 3 results advances a cursor
at 1000 to 1003; a 429 attempt leaves it unchanged; a concrete two-
iteration run never decreases it. -/
theorem C5_seq_from_cursor_witness :
    ((DotaDraft.dotaAttempt ⟨1000, 30⟩ 200 3).1).seqFrom =
      1000 + min 3 DotaDraft.dotaRequested ∧
    ((DotaDraft.dotaAttempt ⟨1000, 30⟩ 429 0).1).seqFrom = 1000 ∧
    1000 ≤ (DotaDraft.dotaRun 5 ⟨1000, 30⟩ [[(429, 0), (200, 100)], [(200, 7)]]).seqFrom :=
  ⟨(C5_seq_from_cursor ⟨1000, 30⟩ 200 3).1 rfl (by decide),
   (C5_seq_from_cursor ⟨1000, 30⟩ 429 0).2.1 (by decide),
   (C5_seq_from_cursor ⟨1000, 30⟩ 429 0).2.2.2.2 5 [[(429, 0), (200, 100)], [(200, 7)]]⟩

namespace DotaDraft

/-- Reachable values of an endpoint's rate_limit_wait: it starts at the
initial dict value and is only ever changed by the two updates the code
performs — incWait on a failed attempt (lines 172 and 337) and decWait on
success (lines 196 and 345). -/
inductive ReachWait (base init : Nat) : Nat → Prop
  | start : ReachWait base init init
  | grow {w : Nat} : ReachWait base init w → ReachWait base init (incWait w)
  | shrink {w : Nat} : ReachWait base init w → ReachWait base init (decWait base w)

/-- The invariant carried by every reachable backoff value at base = init
= 30 with increment 20: at least the base, and congruent to it mod the
increment. -/
theorem reachWait_invariant {w : Nat} (h : ReachWait 30 30 w) :
    30 ≤ w ∧ w % 20 = 10 := by
  induction h with
  | start => omega
  | grow _ ih => unfold incWait waitIncrement; omega
  | shrink _ ih => unfold decWait waitIncrement; omega

end DotaDraft

/-- C6: for every reachable value of either endpoint's rate_limit_wait
(Dota API poller: base 30, initial 30; OAPI fetchers: base 30, initial
30), the wait never falls below rate_limit_wait_base, and every individual
update moves it by a multiple of wait_increment: the failure update adds
exactly wait_increment, and the clamped success update subtracts either
wait_increment or nothing. -/
theorem C6_backoff_invariant (w : Nat)
    (h : DotaDraft.ReachWait DotaDraft.dotaRateLimitBase DotaDraft.dotaInitialWait w ∨
         DotaDraft.ReachWait DotaDraft.oapiRateLimitBase DotaDraft.oapiInitialWait w) :
    DotaDraft.dotaRateLimitBase ≤ w ∧ DotaDraft.oapiRateLimitBase ≤ w ∧
    DotaDraft.waitIncrement ∣ (w - DotaDraft.dotaRateLimitBase) ∧
    DotaDraft.incWait w - w = DotaDraft.waitIncrement ∧
    DotaDraft.waitIncrement ∣ (w - DotaDraft.decWait DotaDraft.dotaRateLimitBase w) ∧
    DotaDraft.waitIncrement ∣ (w - DotaDraft.decWait DotaDraft.oapiRateLimitBase w) := by
  have hw : 30 ≤ w ∧ w % 20 = 10 := by
    rcases h with h | h <;> exact DotaDraft.reachWait_invariant h
  have hd : DotaDraft.decWait 30 w = max 30 (w - 20) := rfl
  refine ⟨by unfold DotaDraft.dotaRateLimitBase; omega,
    by unfold DotaDraft.oapiRateLimitBase; omega, ?_,
    by simp [DotaDraft.incWait], ?_, ?_⟩ <;>
    · apply Nat.dvd_of_mod_eq_zero
      simp only [DotaDraft.waitIncrement, DotaDraft.dotaRateLimitBase,
        DotaDraft.oapiRateLimitBase, DotaDraft.decWait]
      omega

/-- C6 witness: the initial value 30 is reachable for the Dota endpoint,
and the invariant instantiates there. -/
theorem C6_backoff_invariant_witness :
    DotaDraft.dotaRateLimitBase ≤ 30 ∧ DotaDraft.oapiRateLimitBase ≤ 30 ∧
    DotaDraft.waitIncrement ∣ (30 - DotaDraft.dotaRateLimitBase) ∧
    DotaDraft.incWait 30 - 30 = DotaDraft.waitIncrement ∧
    DotaDraft.waitIncrement ∣ (30 - DotaDraft.decWait DotaDraft.dotaRateLimitBase 30) ∧
    DotaDraft.waitIncrement ∣ (30 - DotaDraft.decWait DotaDraft.oapiRateLimitBase 30) :=
  C6_backoff_invariant 30 (Or.inl DotaDraft.ReachWait.start)

namespace DotaDraft

/-- Binary digits of n, most significant first (empty for 0), computed
with explicit fuel; fuel n+1 is always sufficient. -/
def binDigitsAux : Nat → Nat → List Nat
  | 0, _ => []
  | fuel + 1, n => if n = 0 then [] else binDigitsAux fuel (n / 2) ++ [n % 2]

def binDigits (n : Nat) : List Nat := binDigitsAux (n + 1) n

/-- format(n, "08b"): the binary representation of n left-padded with
zeros to at least 8 digits (unpadded when already longer). -/
def format08b (n : Nat) : List Nat :=
  List.replicate (8 - (binDigits n).length) 0 ++ binDigits n

/-- int(format(player_slot, "08b")[0]) — the leading digit of the padded
binary representation (API._parse_match line 255). -/
def teamOfSlot (slot : Nat) : Nat := (format08b slot).headD 0

/-- One entry of the enrichment response's players array: the two keys
_parse_match reads. -/
structure PlayerData where
  hero_id : Int
  player_slot : Nat
  deriving DecidableEq, Repr

/-- The enrichment response JSON as read by API._parse_match: a key that
may be absent is an outer Option (absence raises KeyError, caught as a
drop); skill may also be present but null, hence Option (Option Int). -/
structure OMatch where
  match_id : Option Int
  dire_score : Option Int
  radiant_score : Option Int
  duration : Option Int
  radiant_win : Option Bool
  start_time : Option Int
  region : Option Int
  skill : Option (Option Int)
  game_mode : Option Int
  human_players : Option Int
  lobby_type : Option Int
  replay_salt : Option Int
  replay_url : Option String
  throw : Option Int
  loss : Option Int
  players : List PlayerData
  deriving DecidableEq, Repr

/-- The players whose slot's leading bit parses to 1 (dire side). -/
def direSide (d : OMatch) : List PlayerData :=
  d.players.filter (fun p => teamOfSlot p.player_slot == 1)

/-- The players whose slot's leading bit parses to anything else
(radiant side — the else branch of line 257). -/
def radSide (d : OMatch) : List PlayerData :=
  d.players.filter (fun p => !(teamOfSlot p.player_slot == 1))

/-- API._parse_match (lines 214-282): KeyError on any required field
drops the record (None); game_mode 22, lobby_type 7, human_players 10
required; null skill defaults to 0; the four replay keys are taken
jointly or defaulted to None; players are split by the top bit of
player_slot, and anything but a 5/5 split drops the record. -/
def parseMatch (d : OMatch) : Option Game :=
  match d.match_id, d.dire_score, d.radiant_score, d.duration, d.radiant_win,
        d.start_time, d.region, d.skill, d.game_mode, d.human_players,
        d.lobby_type with
  | some mid, some ds, some rs, some dur, some rw, some start, some reg,
    some sk, some gm, some hp, some lt =>
    if gm ≠ 22 ∨ lt ≠ 7 ∨ hp ≠ 10 then none
    else
      let skill : Int := match sk with | none => 0 | some s => s
      let repl : Option Int × Option String × Option Int × Option Int :=
        match d.replay_salt, d.replay_url, d.throw, d.loss with
        | some sa, some ru, some th, some lo => (some sa, some ru, some th, some lo)
        | _, _, _, _ => (none, none, none, none)
      if (direSide d).length ≠ 5 ∨ (radSide d).length ≠ 5 then none
      else some {
        match_id := mid, match_time := start,
        winner := if rw then 1 else 0,
        duration := dur, radiant_score := rs, dire_score := ds,
        skill := skill, region := reg,
        radiant_picks := (radSide d).map (fun p => p.hero_id),
        dire_picks := (direSide d).map (fun p => p.hero_id),
        salt := repl.1, replay := repl.2.1, throw := repl.2.2.1,
        loss := repl.2.2.2 }
  | _, _, _, _, _, _, _, _, _, _, _ => none

/-- A syntactically complete response whose players array is empty: the
parse must drop it at the 5/5 check. -/
def emptyPlayersMatch : OMatch :=
  { match_id := some 1, dire_score := some 1, radiant_score := some 1,
    duration := some 1, radiant_win := some true, start_time := some 1,
    region := some 1, skill := some (some 1), game_mode := some 22,
    human_players := some 10, lobby_type := some 7, replay_salt := none,
    replay_url := none, throw := none, loss := none, players := [] }

end DotaDraft

set_option maxRecDepth 8192 in
/-- C7: the team of a player is the most-significant bit of the 8-bit
player_slot field — for every slot in [0,255] the parsed team index is 0
below 128 and 1 from 128 up, in particular slot 0 is a radiant pick and
slot 128 a dire pick — and every record that does not parse to exactly 5
players per side is dropped (parseMatch returns none). -/
theorem C7_player_slot_team_bit :
    (∀ s : Nat, s ≤ 255 →
      DotaDraft.teamOfSlot s = if s < 128 then 0 else 1) ∧
    DotaDraft.teamOfSlot 0 = 0 ∧ DotaDraft.teamOfSlot 128 = 1 ∧
    ∀ d : DotaDraft.OMatch,
      ¬ ((DotaDraft.direSide d).length = 5 ∧ (DotaDraft.radSide d).length = 5) →
        DotaDraft.parseMatch d = none := by
  refine ⟨by decide, by decide, by decide, ?_⟩
  intro d hno
  simp only [DotaDraft.parseMatch]
  split
  · split
    · rfl
    · split
      · rfl
      · rename_i h5
        push_neg at h5
        exact absurd ⟨h5.1, h5.2⟩ hno
  · rfl

/-- C7 witness: the theorem applied at slot 200 (dire) and at a complete
response with an empty players array (dropped by the 5/5 rule). -/
theorem C7_player_slot_team_bit_witness :
    DotaDraft.teamOfSlot 200 = (if 200 < 128 then 0 else 1) ∧
    DotaDraft.parseMatch DotaDraft.emptyPlayersMatch = none :=
  ⟨C7_player_slot_team_bit.1 200 (by decide),
   C7_player_slot_team_bit.2.2.2 DotaDraft.emptyPlayersMatch (by decide)⟩

namespace DotaDraft

/-- The number of SQL statements commit_game executes inside its single
transaction: one match_info REPLACE and ten hero_picks REPLACEs. -/
def commitStmtCount : Nat := 11

/-- Database.commit_game with the storage layer's possible failure made
explicit: fail k says whether the k-th statement (0 = the match REPLACE,
1-10 = the pick REPLACEs) raises.  Validation failure returns False
having executed no statement; a statement failure rolls the transaction
back (the visible store is unchanged) and re-raises (except clause, lines
208-211); otherwise the store of commitGame is committed.  Returns the
visible store, the outcome (ok b for a return of b, error for a raise),
and the number of statements executed. -/
def commitGameExc (fail : Nat → Bool) (st : Store) (g : Game) :
    Store × Except Unit Bool × Nat :=
  if ¬ validGame g then (st, .ok false, 0)
  else
    match (List.range commitStmtCount).find? fail with
    | some k => (st, .error (), k + 1)
    | none => ((commitGame st g).1, .ok true, commitStmtCount)

/-- A record passing _valid_game, with ten pairwise distinct heroes. -/
def validGameA : Game :=
  { match_id := 1, match_time := 0, winner := 1, duration := 100,
    radiant_score := 1, dire_score := 2, skill := 2, region := 0,
    radiant_picks := [1, 2, 3, 4, 5], dire_picks := [6, 7, 8, 9, 10],
    salt := none, replay := none, throw := none, loss := none }

end DotaDraft

/-- C8: commit_game is atomic in both failure modes — a record failing
validation yields False with zero statements executed, the store intact
and nothing raised; a validated record whose transaction hits a failing
statement leaves the visible store unchanged (rollback) and propagates
the error; and with no failure the whole transaction commits. -/
theorem C8_commit_atomicity (fail : Nat → Bool) (st : DotaDraft.Store)
    (g : DotaDraft.Game) :
    (DotaDraft.validGame g = false →
      DotaDraft.commitGameExc fail st g = (st, .ok false, 0)) ∧
    (DotaDraft.validGame g = true → (∃ k, k < DotaDraft.commitStmtCount ∧ fail k) →
      (DotaDraft.commitGameExc fail st g).1 = st ∧
      (DotaDraft.commitGameExc fail st g).2.1 = .error ()) ∧
    (DotaDraft.validGame g = true →
      (∀ k, k < DotaDraft.commitStmtCount → fail k = false) →
      DotaDraft.commitGameExc fail st g =
        ((DotaDraft.commitGame st g).1, .ok true, DotaDraft.commitStmtCount)) := by
  refine ⟨?_, ?_, ?_⟩
  · intro hv
    simp [DotaDraft.commitGameExc, hv]
  · intro hv hex
    have hsome : ((List.range DotaDraft.commitStmtCount).find? fail).isSome := by
      rw [List.find?_isSome]
      obtain ⟨k, hk, hfk⟩ := hex
      exact ⟨k, List.mem_range.mpr hk, hfk⟩
    cases hf : (List.range DotaDraft.commitStmtCount).find? fail with
    | none => rw [hf] at hsome; simp at hsome
    | some k => constructor <;> simp [DotaDraft.commitGameExc, hv, hf]
  · intro hv hall
    have hnone : (List.range DotaDraft.commitStmtCount).find? fail = none := by
      rw [List.find?_eq_none]
      intro k hk
      simp [hall k (List.mem_range.mp hk)]
    simp [DotaDraft.commitGameExc, hv, hnone]

/-- C8 witness: the invalid skill-0 record executes nothing and returns
False; the valid record with statement 3 failing rolls back and raises;
the valid record with no failure commits all 11 statements. -/
theorem C8_commit_atomicity_witness :
    DotaDraft.commitGameExc (fun k => decide (k = 3)) DotaDraft.emptyStore
      DotaDraft.skillZeroGame = (DotaDraft.emptyStore, .ok false, 0) ∧
    (DotaDraft.commitGameExc (fun k => decide (k = 3)) DotaDraft.emptyStore
      DotaDraft.validGameA).1 = DotaDraft.emptyStore ∧
    (DotaDraft.commitGameExc (fun k => decide (k = 3)) DotaDraft.emptyStore
      DotaDraft.validGameA).2.1 = .error () ∧
    DotaDraft.commitGameExc (fun _ => false) DotaDraft.emptyStore
      DotaDraft.validGameA =
      ((DotaDraft.commitGame DotaDraft.emptyStore DotaDraft.validGameA).1,
        .ok true, DotaDraft.commitStmtCount) :=
  ⟨(C8_commit_atomicity (fun k => decide (k = 3)) DotaDraft.emptyStore
      DotaDraft.skillZeroGame).1 (by decide),
   ((C8_commit_atomicity (fun k => decide (k = 3)) DotaDraft.emptyStore
      DotaDraft.validGameA).2.1 (by decide) ⟨3, by decide, by decide⟩).1,
   ((C8_commit_atomicity (fun k => decide (k = 3)) DotaDraft.emptyStore
      DotaDraft.validGameA).2.1 (by decide) ⟨3, by decide, by decide⟩).2,
   (C8_commit_atomicity (fun _ => false) DotaDraft.emptyStore
      DotaDraft.validGameA).2.2 (by decide) (fun k _ => rfl)⟩

namespace DotaDraft

theorem validGame_pick_lengths (g : Game) (hv : validGame g = true) :
    g.radiant_picks.length = 5 ∧ g.dire_picks.length = 5 := by
  simp only [validGame, Bool.and_eq_true, Bool.not_eq_true', decide_eq_false_iff_not,
    not_not] at hv
  tauto

theorem foldl_insertPick_fresh (id t : Int) :
    ∀ (hs : List Int) (ps : List PickRow), hs.Nodup →
      (∀ h ∈ hs, ∀ p ∈ ps, ¬ (p.match_id = id ∧ p.hero = h)) →
      hs.foldl (fun acc h => insertOrReplacePick acc ⟨id, t, h⟩) ps =
        ps ++ hs.map (fun h => (⟨id, t, h⟩ : PickRow)) := by
  intro hs
  induction hs with
  | nil => intro ps _ _; simp
  | cons h hs ih =>
    intro ps hnd hfresh
    simp only [List.foldl_cons]
    have hins : insertOrReplacePick ps ⟨id, t, h⟩ = ps ++ [(⟨id, t, h⟩ : PickRow)] := by
      unfold insertOrReplacePick
      congr 1
      apply List.filter_eq_self.mpr
      intro p hp
      simp only [decide_eq_true_eq]
      exact hfresh h (List.mem_cons_self h hs) p hp
    have hfr : ∀ h' ∈ hs, ∀ p ∈ ps ++ [(⟨id, t, h⟩ : PickRow)],
        ¬ (p.match_id = id ∧ p.hero = h') := by
      intro h' hh' p hp
      rcases List.mem_append.mp hp with hp | hp
      · exact hfresh h' (List.mem_cons_of_mem h hh') p hp
      · have hph : p = ⟨id, t, h⟩ := by simpa using hp
        subst hph
        intro hc
        have hhh : h = h' := by simpa using hc.2
        exact (List.nodup_cons.mp hnd).1 (hhh ▸ hh')
    rw [hins, ih (ps ++ [(⟨id, t, h⟩ : PickRow)]) (List.nodup_cons.mp hnd).2 hfr]
    simp

theorem filter_id_insertPick (ps : List PickRow) (r : PickRow) (id : Int)
    (hne : r.match_id ≠ id) :
    (insertOrReplacePick ps r).filter (fun p => decide (p.match_id = id)) =
      ps.filter (fun p => decide (p.match_id = id)) := by
  unfold insertOrReplacePick
  rw [List.filter_append]
  have h1 : [r].filter (fun p => decide (p.match_id = id)) = [] := by
    simp [hne]
  rw [h1, List.append_nil, List.filter_filter]
  apply List.filter_congr
  intro p hp
  by_cases h : p.match_id = id
  · simp only [h, decide_True, Bool.and_true, not_and, Bool.true_and, decide_eq_true_eq]
    exact fun hc => (hne hc.symm).elim
  · simp [h]

end DotaDraft

namespace DotaDraft

theorem commitGame_invalid (st : Store) (g : Game) (hv : validGame g = false) :
    commitGame st g = (st, false) := by
  simp [commitGame, hv]

theorem commit_match_info (st : Store) (g : Game) (hv : validGame g = true) :
    ((commitGame st g).1).match_info = insertOrReplaceMatch st.match_info (rowOfGame g) := by
  simp [commitGame, hv]

theorem commit_hero_picks (st : Store) (g : Game) (hv : validGame g = true) :
    ((commitGame st g).1).hero_picks =
      g.radiant_picks.foldl (fun ps h => insertOrReplacePick ps ⟨g.match_id, 1, h⟩)
        (g.dire_picks.foldl (fun ps h => insertOrReplacePick ps ⟨g.match_id, 0, h⟩)
          (if st.match_info.any (fun m => decide (m.match_id = g.match_id)) then
            st.hero_picks.filter (fun p => decide (p.match_id ≠ g.match_id))
          else st.hero_picks)) := by
  simp [commitGame, hv]

theorem commit_returns_true (st : Store) (g : Game) (hv : validGame g = true) :
    (commitGame st g).2 = true := by
  simp [commitGame, hv]

theorem filter_id_foldl_insert (gid t id : Int) (hne : gid ≠ id) :
    ∀ (hs : List Int) (ps : List PickRow),
      (hs.foldl (fun acc h => insertOrReplacePick acc ⟨gid, t, h⟩) ps).filter
          (fun p => decide (p.match_id = id)) =
        ps.filter (fun p => decide (p.match_id = id)) := by
  intro hs
  induction hs with
  | nil => intro ps; rfl
  | cons h hs ih =>
    intro ps
    simp only [List.foldl_cons]
    rw [ih, filter_id_insertPick]
    exact hne

theorem rowsFor_commit_other (st : Store) (g : Game) (id : Int)
    (hv : validGame g = true) (hne : g.match_id ≠ id) :
    rowsFor (commitGame st g).1 id = rowsFor st id := by
  unfold rowsFor
  rw [commit_hero_picks st g hv]
  rw [filter_id_foldl_insert _ _ _ hne, filter_id_foldl_insert _ _ _ hne]
  by_cases hhad : st.match_info.any (fun m => decide (m.match_id = g.match_id)) = true
  · rw [if_pos hhad, List.filter_filter]
    apply List.filter_congr
    intro p hp
    by_cases h : p.match_id = id
    · have h2 : ¬ id = g.match_id := fun hc => hne hc.symm
      simp [h, h2]
    · simp [h]
  · rw [if_neg hhad]

end DotaDraft

namespace DotaDraft

/-- Foreign-key integrity: every hero_picks row has its parent match_info
row (PRAGMA foreign_keys = 1 enforces this on every reachable store). -/
def FKOk (st : Store) : Prop :=
  ∀ p ∈ st.hero_picks, ∃ m ∈ st.match_info, m.match_id = p.match_id

theorem commit_hero_picks_decomp (st : Store) (g : Game)
    (hv : validGame g = true) (hfk : FKOk st)
    (hnd : (g.dire_picks ++ g.radiant_picks).Nodup) :
    ((commitGame st g).1).hero_picks =
      (if st.match_info.any (fun m => decide (m.match_id = g.match_id)) then
        st.hero_picks.filter (fun p => decide (p.match_id ≠ g.match_id))
      else st.hero_picks) ++
      g.dire_picks.map (fun h => (⟨g.match_id, 0, h⟩ : PickRow)) ++
      g.radiant_picks.map (fun h => (⟨g.match_id, 1, h⟩ : PickRow)) := by
  obtain ⟨hndd, hndr, hdisj⟩ := List.nodup_append.mp hnd
  rw [commit_hero_picks st g hv]
  set picks0 := (if st.match_info.any (fun m => decide (m.match_id = g.match_id)) then
      st.hero_picks.filter (fun p => decide (p.match_id ≠ g.match_id))
    else st.hero_picks) with hp0
  have hfresh0 : ∀ p ∈ picks0, p.match_id ≠ g.match_id := by
    intro p hp
    rw [hp0] at hp
    by_cases hhad : (st.match_info.any fun m => decide (m.match_id = g.match_id)) = true
    · rw [if_pos hhad] at hp
      simpa using (List.mem_filter.mp hp).2
    · rw [if_neg hhad] at hp
      intro hc
      obtain ⟨m, hm, hmid⟩ := hfk p hp
      apply hhad
      rw [List.any_eq_true]
      exact ⟨m, hm, by simp [hmid, hc]⟩
  have h1 : g.dire_picks.foldl (fun ps h => insertOrReplacePick ps ⟨g.match_id, 0, h⟩)
        picks0 =
      picks0 ++ g.dire_picks.map (fun h => (⟨g.match_id, 0, h⟩ : PickRow)) := by
    apply foldl_insertPick_fresh _ _ _ _ hndd
    intro h _ p hp hc
    exact hfresh0 p hp hc.1
  have h2 : g.radiant_picks.foldl (fun ps h => insertOrReplacePick ps ⟨g.match_id, 1, h⟩)
        (picks0 ++ g.dire_picks.map (fun h => (⟨g.match_id, 0, h⟩ : PickRow))) =
      picks0 ++ g.dire_picks.map (fun h => (⟨g.match_id, 0, h⟩ : PickRow)) ++
        g.radiant_picks.map (fun h => (⟨g.match_id, 1, h⟩ : PickRow)) := by
    apply foldl_insertPick_fresh _ _ _ _ hndr
    intro h hh p hp hc
    rcases List.mem_append.mp hp with hp | hp
    · exact hfresh0 p hp hc.1
    · obtain ⟨h', hh', rfl⟩ := List.mem_map.mp hp
      have hhh : h' = h := by simpa using hc.2
      exact hdisj hh' (hhh ▸ hh)
  rw [h1, h2]

theorem rowsFor_commit_self (st : Store) (g : Game)
    (hv : validGame g = true) (hfk : FKOk st)
    (hnd : (g.dire_picks ++ g.radiant_picks).Nodup) :
    rowsFor (commitGame st g).1 g.match_id =
      g.dire_picks.map (fun h => (⟨g.match_id, 0, h⟩ : PickRow)) ++
        g.radiant_picks.map (fun h => (⟨g.match_id, 1, h⟩ : PickRow)) := by
  unfold rowsFor
  rw [commit_hero_picks_decomp st g hv hfk hnd]
  rw [List.filter_append, List.filter_append]
  have e0 : ∀ ps : List PickRow, (∀ p ∈ ps, p.match_id ≠ g.match_id) →
      ps.filter (fun p => decide (p.match_id = g.match_id)) = [] := by
    intro ps hps
    apply List.filter_eq_nil.mpr
    intro p hp
    simp [hps p hp]
  have ed : (g.dire_picks.map fun h => (⟨g.match_id, 0, h⟩ : PickRow)).filter
        (fun p => decide (p.match_id = g.match_id)) =
      g.dire_picks.map fun h => (⟨g.match_id, 0, h⟩ : PickRow) := by
    apply List.filter_eq_self.mpr
    intro p hp
    obtain ⟨h', _, rfl⟩ := List.mem_map.mp hp
    simp
  have er : (g.radiant_picks.map fun h => (⟨g.match_id, 1, h⟩ : PickRow)).filter
        (fun p => decide (p.match_id = g.match_id)) =
      g.radiant_picks.map fun h => (⟨g.match_id, 1, h⟩ : PickRow) := by
    apply List.filter_eq_self.mpr
    intro p hp
    obtain ⟨h', _, rfl⟩ := List.mem_map.mp hp
    simp
  rw [ed, er]
  by_cases hhad : (st.match_info.any fun m => decide (m.match_id = g.match_id)) = true
  · rw [if_pos hhad, e0 _ ?_, List.nil_append]
    intro p hp
    simpa using (List.mem_filter.mp hp).2
  · rw [if_neg hhad, e0 _ ?_, List.nil_append]
    intro p hp hc
    apply hhad
    obtain ⟨m, hm, hmid⟩ := hfk p hp
    rw [List.any_eq_true]
    exact ⟨m, hm, by simp [hmid, hc]⟩

end DotaDraft

namespace DotaDraft

/-- Well-formedness of a reachable store: distinct match_info primary
keys, foreign-key integrity, and the ten-picks-five-per-team shape for
every committed match. -/
def WF (st : Store) : Prop :=
  (st.match_info.map (fun m => m.match_id)).Nodup ∧ FKOk st ∧
  ∀ m ∈ st.match_info,
    pickCount st m.match_id = 10 ∧ teamCount st m.match_id 0 = 5 ∧
      teamCount st m.match_id 1 = 5

theorem WF_empty : WF emptyStore := by
  refine ⟨by simp [emptyStore], ?_, ?_⟩ <;> intro p hp <;> simp [emptyStore] at hp

theorem mem_picks0 (st : Store) (g : Game) (hfk : FKOk st) (p : PickRow)
    (hp : p ∈ (if (st.match_info.any fun m => decide (m.match_id = g.match_id)) = true then
        st.hero_picks.filter (fun p => decide (p.match_id ≠ g.match_id))
      else st.hero_picks)) :
    p ∈ st.hero_picks ∧ p.match_id ≠ g.match_id := by
  by_cases hhad : (st.match_info.any fun m => decide (m.match_id = g.match_id)) = true
  · rw [if_pos hhad] at hp
    exact ⟨(List.mem_filter.mp hp).1, by simpa using (List.mem_filter.mp hp).2⟩
  · rw [if_neg hhad] at hp
    refine ⟨hp, fun hc => hhad ?_⟩
    obtain ⟨m, hm, hmid⟩ := hfk p hp
    rw [List.any_eq_true]
    refine ⟨m, hm, ?_⟩
    simp only [decide_eq_true_eq]
    rw [hmid, hc]

theorem WF_commit (st : Store) (g : Game) (hwf : WF st)
    (hnd : (g.dire_picks ++ g.radiant_picks).Nodup) :
    WF (commitGame st g).1 := by
  by_cases hv : validGame g = true
  case neg =>
    rw [commitGame_invalid st g (by simpa using hv)]
    exact hwf
  obtain ⟨hids, hfk, hcounts⟩ := hwf
  obtain ⟨hlr, hld⟩ := validGame_pick_lengths g hv
  have hdecomp := commit_hero_picks_decomp st g hv hfk hnd
  refine ⟨?_, ?_, ?_⟩
  · rw [commit_match_info st g hv]
    unfold insertOrReplaceMatch
    rw [List.map_append, List.nodup_append]
    refine ⟨((List.filter_sublist _).map _).nodup hids, by simp, ?_⟩
    intro a ha hb
    obtain ⟨m, hm, rfl⟩ := List.mem_map.mp ha
    have hne : m.match_id ≠ g.match_id := by simpa using (List.mem_filter.mp hm).2
    exact hne (by simpa [rowOfGame] using hb)
  · intro p hp
    rw [hdecomp] at hp
    rw [commit_match_info st g hv]
    unfold insertOrReplaceMatch
    rcases List.mem_append.mp hp with hp | hp
    · rcases List.mem_append.mp hp with hp | hp
      · obtain ⟨hpin, hpne⟩ := mem_picks0 st g hfk p hp
        obtain ⟨m, hm, hmid⟩ := hfk p hpin
        refine ⟨m, List.mem_append.mpr (Or.inl ?_), hmid⟩
        rw [List.mem_filter]
        refine ⟨hm, ?_⟩
        simp only [decide_eq_true_eq]
        rw [hmid]
        exact hpne
      · obtain ⟨h', hmem, rfl⟩ := List.mem_map.mp hp
        exact ⟨rowOfGame g, List.mem_append.mpr (Or.inr (by simp)), rfl⟩
    · obtain ⟨h', hmem, rfl⟩ := List.mem_map.mp hp
      exact ⟨rowOfGame g, List.mem_append.mpr (Or.inr (by simp)), rfl⟩
  · intro m hm
    rw [commit_match_info st g hv] at hm
    unfold insertOrReplaceMatch at hm
    rcases List.mem_append.mp hm with hm | hm
    · have hmold : m ∈ st.match_info := (List.mem_filter.mp hm).1
      have hne : m.match_id ≠ g.match_id := by simpa using (List.mem_filter.mp hm).2
      have hrows := rowsFor_commit_other st g m.match_id hv (fun hc => hne hc.symm)
      unfold pickCount teamCount
      rw [hrows]
      exact hcounts m hmold
    · have hmg : m = rowOfGame g := by simpa using hm
      subst hmg
      have hrows := rowsFor_commit_self st g hv hfk hnd
      have hid : (rowOfGame g).match_id = g.match_id := rfl
      unfold pickCount teamCount
      rw [hid, hrows]
      have ed0 : (g.dire_picks.map fun h => (⟨g.match_id, 0, h⟩ : PickRow)).filter
            (fun p => decide (p.team = 0)) =
          g.dire_picks.map fun h => (⟨g.match_id, 0, h⟩ : PickRow) := by
        apply List.filter_eq_self.mpr
        intro p hp
        obtain ⟨h', _, rfl⟩ := List.mem_map.mp hp
        simp
      have er0 : (g.radiant_picks.map fun h => (⟨g.match_id, 1, h⟩ : PickRow)).filter
          (fun p => decide (p.team = 0)) = [] := by
        apply List.filter_eq_nil_iff.mpr
        intro p hp
        obtain ⟨h', _, rfl⟩ := List.mem_map.mp hp
        simp
      have ed1 : (g.dire_picks.map fun h => (⟨g.match_id, 0, h⟩ : PickRow)).filter
          (fun p => decide (p.team = 1)) = [] := by
        apply List.filter_eq_nil_iff.mpr
        intro p hp
        obtain ⟨h', _, rfl⟩ := List.mem_map.mp hp
        simp
      have er1 : (g.radiant_picks.map fun h => (⟨g.match_id, 1, h⟩ : PickRow)).filter
            (fun p => decide (p.team = 1)) =
          g.radiant_picks.map fun h => (⟨g.match_id, 1, h⟩ : PickRow) := by
        apply List.filter_eq_self.mpr
        intro p hp
        obtain ⟨h', _, rfl⟩ := List.mem_map.mp hp
        simp
      refine ⟨?_, ?_, ?_⟩
      · simp [hld, hlr]
      · rw [List.filter_append, ed0, er0]
        simp [hld]
      · rw [List.filter_append, ed1, er1]
        simp [hlr]

end DotaDraft

namespace DotaDraft

theorem nodup_filter_length_one {α : Type} (f : α → Int) :
    ∀ (l : List α), (l.map f).Nodup → ∀ a ∈ l,
      (l.filter (fun x => decide (f x = f a))).length = 1 := by
  intro l
  induction l with
  | nil => intro _ a ha; simp at ha
  | cons b l' ih =>
    intro hnd a ha
    have hnd2 : (f b :: List.map f l').Nodup := by simpa using hnd
    have hhead : f b ∉ List.map f l' := (List.nodup_cons.mp hnd2).1
    have htail : (List.map f l').Nodup := (List.nodup_cons.mp hnd2).2
    by_cases hfb : f b = f a
    · rw [List.filter_cons_of_pos (by simp [hfb])]
      have htl : l'.filter (fun x => decide (f x = f a)) = [] := by
        apply List.filter_eq_nil_iff.mpr
        intro x hx hfx
        apply hhead
        rw [List.mem_map]
        have hfx' : f x = f a := by simpa using hfx
        exact ⟨x, hx, hfx'.trans hfb.symm⟩
      simp [htl]
    · rw [List.filter_cons_of_neg (by simp [hfb])]
      have ha' : a ∈ l' := by
        rcases List.mem_cons.mp ha with rfl | h
        · exact absurd rfl hfb
        · exact h
      exact ih htail a ha'

theorem WF_foldl_commit (games : List Game) :
    ∀ (st : Store), WF st →
      (∀ g ∈ games, (g.dire_picks ++ g.radiant_picks).Nodup) →
      WF (games.foldl (fun s g => (commitGame s g).1) st) := by
  induction games with
  | nil => intro st h _; exact h
  | cons g gs ih =>
    intro st h hnd
    exact ih _ (WF_commit st g h (hnd g (by simp)))
      (fun g' hg' => hnd g' (by simp [hg']))

/-- A record passing _valid_game in which hero 5 appears on both sides. -/
def dupHeroGame : Game :=
  { match_id := 1, match_time := 0, winner := 1, duration := 100,
    radiant_score := 1, dire_score := 2, skill := 2, region := 0,
    radiant_picks := [1, 2, 3, 4, 5], dire_picks := [5, 6, 7, 8, 9],
    salt := none, replay := none, throw := none, loss := none }

end DotaDraft

/-- C4 counterexample: the claim as stated fails — commit_game accepts a
record in which hero 5 is listed by both teams (_valid_game checks each
side separately and never compares them), and the (match_id, hero)
primary key then collapses the two rows: the committed match has 9 pick
rows, 4 of them on team 0, not 10 and 5/5. -/
theorem C4_counterexample_duplicate_hero :
    DotaDraft.validGame DotaDraft.dupHeroGame = true ∧
    (DotaDraft.commitGame DotaDraft.emptyStore DotaDraft.dupHeroGame).2 = true ∧
    ((DotaDraft.commitGame DotaDraft.emptyStore DotaDraft.dupHeroGame).1).match_info.map
      (fun m => m.match_id) = [1] ∧
    DotaDraft.pickCount (DotaDraft.commitGame DotaDraft.emptyStore DotaDraft.dupHeroGame).1 1 = 9 ∧
    DotaDraft.teamCount (DotaDraft.commitGame DotaDraft.emptyStore DotaDraft.dupHeroGame).1 1 0 = 4 ∧
    ¬ DotaDraft.pickCount (DotaDraft.commitGame DotaDraft.emptyStore DotaDraft.dupHeroGame).1 1 = 10 := by
  decide

/-- C4 (amended): after any sequence of commit_game calls whose records
each list 10 pairwise distinct hero IDs, every match present in
match_info has exactly 10 hero_picks rows, 5 per team, and exactly one
match_info row — in particular re-committing an existing match_id
replaces rather than duplicates, because the REPLACE of the parent row
cascade-deletes the old picks.  (The distinctness proviso is forced by
the counterexample: _valid_game admits duplicate heroes, which the
(match_id, hero) key then collapses below 10 rows.) -/
theorem C4_ten_picks_invariant (games : List DotaDraft.Game)
    (hnd : ∀ g ∈ games, (g.dire_picks ++ g.radiant_picks).Nodup) :
    ∀ m ∈ (games.foldl (fun s g => (DotaDraft.commitGame s g).1)
        DotaDraft.emptyStore).match_info,
      DotaDraft.pickCount (games.foldl (fun s g => (DotaDraft.commitGame s g).1)
        DotaDraft.emptyStore) m.match_id = 10 ∧
      DotaDraft.teamCount (games.foldl (fun s g => (DotaDraft.commitGame s g).1)
        DotaDraft.emptyStore) m.match_id 0 = 5 ∧
      DotaDraft.teamCount (games.foldl (fun s g => (DotaDraft.commitGame s g).1)
        DotaDraft.emptyStore) m.match_id 1 = 5 ∧
      DotaDraft.matchRowCount (games.foldl (fun s g => (DotaDraft.commitGame s g).1)
        DotaDraft.emptyStore) m.match_id = 1 := by
  have hwf := DotaDraft.WF_foldl_commit games DotaDraft.emptyStore DotaDraft.WF_empty hnd
  obtain ⟨hids, -, hcounts⟩ := hwf
  intro m hm
  refine ⟨(hcounts m hm).1, (hcounts m hm).2.1, (hcounts m hm).2.2, ?_⟩
  unfold DotaDraft.matchRowCount
  exact DotaDraft.nodup_filter_length_one (fun m => m.match_id) _ hids m hm

/-- C4 witness: the amended theorem applied to the single-record history
[validGameA] (distinct heroes), at its one committed match row. -/
theorem C4_ten_picks_invariant_witness :
    DotaDraft.pickCount ([DotaDraft.validGameA].foldl
      (fun s g => (DotaDraft.commitGame s g).1) DotaDraft.emptyStore)
      (DotaDraft.rowOfGame DotaDraft.validGameA).match_id = 10 ∧
    DotaDraft.teamCount ([DotaDraft.validGameA].foldl
      (fun s g => (DotaDraft.commitGame s g).1) DotaDraft.emptyStore)
      (DotaDraft.rowOfGame DotaDraft.validGameA).match_id 0 = 5 ∧
    DotaDraft.teamCount ([DotaDraft.validGameA].foldl
      (fun s g => (DotaDraft.commitGame s g).1) DotaDraft.emptyStore)
      (DotaDraft.rowOfGame DotaDraft.validGameA).match_id 1 = 5 ∧
    DotaDraft.matchRowCount ([DotaDraft.validGameA].foldl
      (fun s g => (DotaDraft.commitGame s g).1) DotaDraft.emptyStore)
      (DotaDraft.rowOfGame DotaDraft.validGameA).match_id = 1 :=
  C4_ten_picks_invariant [DotaDraft.validGameA] (by decide)
    (DotaDraft.rowOfGame DotaDraft.validGameA) (by decide)

namespace DotaDraft

/-- One row of the get_drafts join query: SELECT match_info.match_id,
match_info.winner, hero_picks.hero, hero_picks.team. -/
structure Row where
  match_id : Int
  winner : Int
  hero : Int
  team : Int
  deriving DecidableEq, Repr

/-- The (match_id, hero) primary-key order of the hero_picks index. -/
def pickKeyLe (p q : PickRow) : Prop :=
  p.match_id < q.match_id ∨ (p.match_id = q.match_id ∧ p.hero ≤ q.hero)

instance : DecidableRel pickKeyLe := fun p q => by
  unfold pickKeyLe; infer_instance

instance : IsTotal PickRow pickKeyLe :=
  ⟨by intro a b; unfold pickKeyLe; omega⟩

instance : IsTrans PickRow pickKeyLe :=
  ⟨by intro a b c; unfold pickKeyLe; omega⟩

/-- The hero_picks rows in the order the get_drafts query emits them:
SQLite answers the join by scanning the hero_picks primary-key index
(match_id > ?), i.e. in ascending (match_id, hero) order. -/
def sortPicks (ps : List PickRow) : List PickRow := List.insertionSort pickKeyLe ps

/-- The INNER JOIN ... WHERE match_info.match_id >= ? of get_drafts
(line 234): each indexed pick row joined to its parent match row,
restricted to match_id ≥ starting_from. -/
def joinRows (st : Store) (startFrom : Int) : List Row :=
  (sortPicks st.hero_picks).filterMap (fun p =>
    match st.match_info.find? (fun m => decide (m.match_id = p.match_id)) with
    | some m =>
      if startFrom ≤ p.match_id then some ⟨p.match_id, m.winner, p.hero, p.team⟩
      else none
    | none => none)

/-- The per-match draft assembled by get_drafts. -/
structure Draft where
  win_picks : List Int
  loss_picks : List Int
  deriving DecidableEq, Repr

def emptyDraft : Draft := ⟨[], []⟩

/-- Lines 254-257: append the hero to win_picks when its team equals the
match winner, else to loss_picks. -/
def addPick (d : Draft) (r : Row) : Draft :=
  if r.team = r.winner then { d with win_picks := d.win_picks ++ [r.hero] }
  else { d with loss_picks := d.loss_picks ++ [r.hero] }

/-- One iteration of the grouping loop (lines 246-260): the defaultdict
keyed by match_id (insertion-ordered, updated in place) and the running
max_id (updated when match_id > max_id). -/
def groupStep (acc : List (Int × Draft) × Int) (r : Row) : List (Int × Draft) × Int :=
  let assoc :=
    if (acc.1.find? (fun kv => decide (kv.1 = r.match_id))).isSome then
      acc.1.map (fun kv => if kv.1 = r.match_id then (kv.1, addPick kv.2 r) else kv)
    else acc.1 ++ [(r.match_id, addPick emptyDraft r)]
  (assoc, if acc.2 < r.match_id then r.match_id else acc.2)

/-- The whole grouping pass, max_id starting at 0. -/
def groupRows (rows : List Row) : List (Int × Draft) × Int :=
  rows.foldl groupStep ([], 0)

/-- Database.get_drafts (lines 218-269): clamp the arguments
(limit = max(1, limit), starting_from = max(0, starting_from)), fetch the
join LIMIT 10*limit, group by match, and return (max_id, num_results,
grouped mapping). -/
def getDrafts (st : Store) (starting_from limit : Int) :
    Int × Nat × List (Int × Draft) :=
  let lim := max 1 limit
  let start := max 0 starting_from
  let rows := (joinRows st start).take (10 * lim).toNat
  let grouped := groupRows rows
  (grouped.2, grouped.1.length, grouped.1)

end DotaDraft

namespace DotaDraft

theorem groupStep_new_key (acc : List (Int × Draft) × Int) (r : Row)
    (hnot : ∀ kv ∈ acc.1, kv.1 ≠ r.match_id) :
    (groupStep acc r).1 = acc.1 ++ [(r.match_id, addPick emptyDraft r)] := by
  unfold groupStep
  have hfind : (acc.1.find? (fun kv => decide (kv.1 = r.match_id))) = none := by
    apply List.find?_eq_none.mpr
    intro kv hkv
    simp [hnot kv hkv]
  simp [hfind]

theorem groupRows_maxId : ∀ (rows : List Row) (acc : List (Int × Draft) × Int),
    (rows.foldl groupStep acc).2 =
      rows.foldl (fun m r => if m < r.match_id then r.match_id else m) acc.2 := by
  intro rows
  induction rows with
  | nil => intro acc; rfl
  | cons r rs ih =>
    intro acc
    simp only [List.foldl_cons]
    rw [ih]
    rfl

theorem foldl_max_const (c : Int) : ∀ (rows : List Row) (m0 : Int), rows ≠ [] →
    (∀ r ∈ rows, r.match_id = c) →
    rows.foldl (fun m r => if m < r.match_id then r.match_id else m) m0 = max m0 c := by
  intro rows
  induction rows with
  | nil => intro m0 h _; exact absurd rfl h
  | cons r rs ih =>
    intro m0 _ hall
    simp only [List.foldl_cons]
    have hr : r.match_id = c := hall r (by simp)
    have hm1 : (if m0 < r.match_id then r.match_id else m0) = max m0 c := by
      rw [hr]; split <;> omega
    rw [hm1]
    by_cases hrs : rs = []
    · simp [hrs]
    · rw [ih (max m0 c) hrs (fun r' hr' => hall r' (by simp [hr']))]
      omega

theorem groupRows_keys_mem : ∀ (rows : List Row) (acc : List (Int × Draft) × Int),
    (∀ r ∈ rows, r.match_id ∈ acc.1.map Prod.fst) →
    ((rows.foldl groupStep acc).1).map Prod.fst = acc.1.map Prod.fst := by
  intro rows
  induction rows with
  | nil => intro acc _; rfl
  | cons r rs ih =>
    intro acc hall
    have hmem := hall r (by simp)
    have hfind : (acc.1.find? (fun kv => decide (kv.1 = r.match_id))).isSome := by
      rw [List.find?_isSome]
      obtain ⟨kv, hkv, hfst⟩ := List.mem_map.mp hmem
      exact ⟨kv, hkv, by simp [hfst]⟩
    have hstep : (groupStep acc r).1 =
        acc.1.map (fun kv => if kv.1 = r.match_id then (kv.1, addPick kv.2 r) else kv) := by
      unfold groupStep
      simp [hfind]
    have hkeys : ((groupStep acc r).1).map Prod.fst = acc.1.map Prod.fst := by
      rw [hstep, List.map_map]
      apply List.map_congr_left
      intro kv _
      by_cases hkv : kv.1 = r.match_id <;> simp [hkv]
    have hall' : ∀ r' ∈ rs, r'.match_id ∈ ((groupStep acc r).1).map Prod.fst := by
      intro r' hr'
      rw [hkeys]
      exact hall r' (by simp [hr'])
    simp only [List.foldl_cons]
    rw [ih (groupStep acc r) hall', hkeys]

theorem group_single_aux (a : Int) : ∀ (rows : List Row) (d0 : Draft) (m0 : Int),
    (∀ r ∈ rows, r.match_id = a) →
    ((rows.foldl groupStep ([(a, d0)], m0)).1) =
      [(a, ⟨d0.win_picks ++
              (rows.filter (fun r => decide (r.team = r.winner))).map (fun r => r.hero),
            d0.loss_picks ++
              (rows.filter (fun r => !decide (r.team = r.winner))).map (fun r => r.hero)⟩)] := by
  intro rows
  induction rows with
  | nil => intro d0 m0 _; simp
  | cons r rs ih =>
    intro d0 m0 hall
    have hid : r.match_id = a := hall r (by simp)
    simp only [List.foldl_cons]
    have hstep2 : groupStep ([(a, d0)], m0) r =
        ([(a, addPick d0 r)], if m0 < r.match_id then r.match_id else m0) := by
      unfold groupStep
      simp [hid]
    rw [hstep2, ih (addPick d0 r) _ (fun r' h => hall r' (by simp [h]))]
    unfold addPick
    by_cases ht : r.team = r.winner
    · simp [ht, List.filter_cons]
    · simp [ht, List.filter_cons]

theorem group_single (a : Int) (rows : List Row) (hne : rows ≠ [])
    (hall : ∀ r ∈ rows, r.match_id = a) :
    (groupRows rows).1 =
      [(a, ⟨(rows.filter (fun r => decide (r.team = r.winner))).map (fun r => r.hero),
            (rows.filter (fun r => !decide (r.team = r.winner))).map (fun r => r.hero)⟩)] := by
  obtain ⟨r, rs, rfl⟩ := List.exists_cons_of_ne_nil hne
  unfold groupRows
  rw [List.foldl_cons]
  have hid : r.match_id = a := hall r (by simp)
  have hstep : groupStep ([], 0) r =
      ([(r.match_id, addPick emptyDraft r)], if (0:Int) < r.match_id then r.match_id else 0) := by
    unfold groupStep
    simp
  rw [hstep, hid, group_single_aux a rs (addPick emptyDraft r) _
    (fun r' h => hall r' (by simp [h]))]
  unfold addPick emptyDraft
  by_cases ht : r.team = r.winner <;> simp [ht, List.filter_cons]

end DotaDraft

namespace DotaDraft

theorem validGame_fields (g : Game) (hv : validGame g = true) :
    0 ≤ g.match_id ∧ (g.winner = 0 ∨ g.winner = 1) := by
  simp only [validGame, Bool.and_eq_true, Bool.not_eq_true', decide_eq_false_iff_not,
    not_not] at hv
  have h1 : ¬ g.match_id < 0 := by tauto
  have h2 : ¬ (g.winner ≠ 0 ∧ g.winner ≠ 1) := by tauto
  exact ⟨by omega, by tauto⟩

theorem joinRows_filterMap_const (st : Store) (start c : Int) (mi : MatchRow)
    (hfind : st.match_info.find? (fun m => decide (m.match_id = c)) = some mi)
    (hstart : start ≤ c) :
    ∀ (ps : List PickRow), (∀ p ∈ ps, p.match_id = c) →
      ps.filterMap (fun p =>
        match st.match_info.find? (fun m => decide (m.match_id = p.match_id)) with
        | some m =>
          if start ≤ p.match_id then some ⟨p.match_id, m.winner, p.hero, p.team⟩
          else none
        | none => none) =
      ps.map (fun p => (⟨c, mi.winner, p.hero, p.team⟩ : Row)) := by
  intro ps
  induction ps with
  | nil => intro _; rfl
  | cons p ps ih =>
    intro hall
    have hid : p.match_id = c := hall p (by simp)
    simp only [List.filterMap_cons, List.map_cons, hid, hfind, if_pos hstart]
    rw [ih (fun q hq => hall q (by simp [hq]))]

theorem sorted_partition3 (a b c : Int) (hab : a < b) (hbc : b < c) :
    ∀ (l : List PickRow), l.Sorted pickKeyLe →
      (∀ p ∈ l, p.match_id = a ∨ p.match_id = b ∨ p.match_id = c) →
      l = l.filter (fun p => decide (p.match_id = a)) ++
          l.filter (fun p => decide (p.match_id = b)) ++
          l.filter (fun p => decide (p.match_id = c)) := by
  intro l
  induction l with
  | nil => simp
  | cons p l ih =>
    intro hsort hall
    have hs := List.sorted_cons.mp hsort
    have hl := ih hs.2 (fun q hq => hall q (by simp [hq]))
    have hkey : ∀ q ∈ l, p.match_id ≤ q.match_id := by
      intro q hq
      have := hs.1 q hq
      unfold pickKeyLe at this
      omega
    rcases hall p (by simp) with hp | hp | hp
    · rw [List.filter_cons_of_pos (by simp [hp]),
        List.filter_cons_of_neg (by simp [hp]; omega),
        List.filter_cons_of_neg (by simp [hp]; omega)]
      conv_lhs => rw [hl]
      simp
    · have hfa : l.filter (fun p => decide (p.match_id = a)) = [] := by
        apply List.filter_eq_nil_iff.mpr
        intro q hq
        have := hkey q hq
        simp only [decide_eq_true_eq]
        omega
      have hfa2 : (p :: l).filter (fun p => decide (p.match_id = a)) = [] := by
        rw [List.filter_cons_of_neg (by simp [hp]; omega), hfa]
      rw [hfa2, List.filter_cons_of_pos (by simp [hp]),
        List.filter_cons_of_neg (by simp [hp]; omega)]
      conv_lhs => rw [hl]
      simp [hfa]
    · have hge : ∀ q ∈ l, q.match_id = c := by
        intro q hq
        have := hkey q hq
        rcases hall q (by simp [hq]) with h | h | h <;> omega
      have hfa : l.filter (fun p => decide (p.match_id = a)) = [] := by
        apply List.filter_eq_nil_iff.mpr
        intro q hq
        simp only [decide_eq_true_eq]
        rw [hge q hq]
        omega
      have hfb : l.filter (fun p => decide (p.match_id = b)) = [] := by
        apply List.filter_eq_nil_iff.mpr
        intro q hq
        simp only [decide_eq_true_eq]
        rw [hge q hq]
        omega
      rw [List.filter_cons_of_neg (by simp [hp]; omega),
        List.filter_cons_of_neg (by simp [hp]; omega),
        List.filter_cons_of_pos (by simp [hp]), hfa, hfb]
      conv_lhs => rw [hl]
      simp [hfa, hfb]

end DotaDraft

namespace DotaDraft

theorem group_pair_keys (rows1 rows2 : List Row) (a b : Int) (hne : a ≠ b)
    (h1 : rows1 ≠ []) (h2 : rows2 ≠ [])
    (ha : ∀ r ∈ rows1, r.match_id = a) (hb : ∀ r ∈ rows2, r.match_id = b) :
    (groupRows (rows1 ++ rows2)).1.map Prod.fst = [a, b] := by
  unfold groupRows
  rw [List.foldl_append]
  obtain ⟨r, rs, rfl⟩ := List.exists_cons_of_ne_nil h1
  rw [List.foldl_cons]
  have hra : r.match_id = a := ha r (by simp)
  have hstep1 : (groupStep ([], 0) r).1 = [(a, addPick emptyDraft r)] := by
    rw [groupStep_new_key _ _ (by intro kv hkv; simp at hkv)]
    simp [hra]
  have hkeys1 : ((rs.foldl groupStep (groupStep ([], 0) r)).1).map Prod.fst = [a] := by
    rw [groupRows_keys_mem rs _ ?_] <;> rw [hstep1]
    · rfl
    · intro r' hr'
      simp [ha r' (List.mem_cons_of_mem r hr')]
  obtain ⟨r2, rs2, rfl⟩ := List.exists_cons_of_ne_nil h2
  rw [List.foldl_cons]
  have hrb : r2.match_id = b := hb r2 (by simp)
  have hstep2 : (groupStep (rs.foldl groupStep (groupStep ([], 0) r)) r2).1 =
      (rs.foldl groupStep (groupStep ([], 0) r)).1 ++ [(b, addPick emptyDraft r2)] := by
    rw [groupStep_new_key]
    · rw [hrb]
    · intro kv hkv
      have hin : kv.1 ∈ ((rs.foldl groupStep (groupStep ([], 0) r)).1).map Prod.fst :=
        List.mem_map_of_mem Prod.fst hkv
      rw [hkeys1] at hin
      have : kv.1 = a := by simpa using hin
      rw [this, hrb]
      exact hne
  rw [groupRows_keys_mem rs2 _ ?_] <;> rw [hstep2]
  · simp [hkeys1]
  · intro r' hr'
    simp only [List.map_append, hkeys1]
    simp [hb r' (List.mem_cons_of_mem r2 hr')]

end DotaDraft

/-- C9: over any store holding exactly 3 committed matches, each with its
10 pick rows, get_drafts(starting_from = 0, limit = 2) returns
num_results = 2, the mapping of the two lowest match IDs (ascending
pagination by the hero_picks index), and a max_id equal to the larger of
the two returned IDs. -/
theorem C9_get_drafts_pagination (m1 m2 m3 : DotaDraft.MatchRow)
    (st : DotaDraft.Store)
    (hm : st.match_info = [m1, m2, m3])
    (h0 : 0 ≤ m1.match_id)
    (h12 : m1.match_id < m2.match_id) (h23 : m2.match_id < m3.match_id)
    (hids : ∀ p ∈ st.hero_picks, p.match_id = m1.match_id ∨
      p.match_id = m2.match_id ∨ p.match_id = m3.match_id)
    (hc1 : DotaDraft.pickCount st m1.match_id = 10)
    (hc2 : DotaDraft.pickCount st m2.match_id = 10)
    (hc3 : DotaDraft.pickCount st m3.match_id = 10) :
    (DotaDraft.getDrafts st 0 2).2.1 = 2 ∧
    (DotaDraft.getDrafts st 0 2).2.2.map Prod.fst = [m1.match_id, m2.match_id] ∧
    (DotaDraft.getDrafts st 0 2).1 = max m1.match_id m2.match_id := by
  classical
  have hsorted := List.sorted_insertionSort DotaDraft.pickKeyLe st.hero_picks
  have hperm := List.perm_insertionSort DotaDraft.pickKeyLe st.hero_picks
  have hall : ∀ p ∈ DotaDraft.sortPicks st.hero_picks, p.match_id = m1.match_id ∨
      p.match_id = m2.match_id ∨ p.match_id = m3.match_id := by
    intro p hp
    exact hids p (hperm.mem_iff.mp hp)
  have hpart := DotaDraft.sorted_partition3 m1.match_id m2.match_id m3.match_id h12 h23
    (DotaDraft.sortPicks st.hero_picks) hsorted hall
  have hlen : ∀ (idv : Int), DotaDraft.pickCount st idv = 10 →
      ((DotaDraft.sortPicks st.hero_picks).filter
        (fun p => decide (p.match_id = idv))).length = 10 := by
    intro idv hcount
    have hpf := (hperm.filter (fun p => decide (p.match_id = idv))).length_eq
    unfold DotaDraft.pickCount DotaDraft.rowsFor at hcount
    unfold DotaDraft.sortPicks
    rw [hpf]
    exact hcount
  have hfind1 : st.match_info.find? (fun m => decide (m.match_id = m1.match_id)) =
      some m1 := by
    rw [hm, List.find?_cons_of_pos _ (by simp)]
  have hfind2 : st.match_info.find? (fun m => decide (m.match_id = m2.match_id)) =
      some m2 := by
    rw [hm, List.find?_cons_of_neg _ (by simp; omega),
      List.find?_cons_of_pos _ (by simp)]
  have hfind3 : st.match_info.find? (fun m => decide (m.match_id = m3.match_id)) =
      some m3 := by
    rw [hm, List.find?_cons_of_neg _ (by simp; omega),
      List.find?_cons_of_neg _ (by simp; omega),
      List.find?_cons_of_pos _ (by simp)]
  have hjoin : DotaDraft.joinRows st 0 =
      ((DotaDraft.sortPicks st.hero_picks).filter
        (fun p => decide (p.match_id = m1.match_id))).map
          (fun p => (⟨m1.match_id, m1.winner, p.hero, p.team⟩ : DotaDraft.Row)) ++
      ((DotaDraft.sortPicks st.hero_picks).filter
        (fun p => decide (p.match_id = m2.match_id))).map
          (fun p => (⟨m2.match_id, m2.winner, p.hero, p.team⟩ : DotaDraft.Row)) ++
      ((DotaDraft.sortPicks st.hero_picks).filter
        (fun p => decide (p.match_id = m3.match_id))).map
          (fun p => (⟨m3.match_id, m3.winner, p.hero, p.team⟩ : DotaDraft.Row)) := by
    unfold DotaDraft.joinRows
    conv_lhs => rw [hpart]
    rw [List.filterMap_append, List.filterMap_append]
    rw [DotaDraft.joinRows_filterMap_const st 0 m1.match_id m1 hfind1 h0 _
      (fun p hp => by simpa using (List.mem_filter.mp hp).2)]
    rw [DotaDraft.joinRows_filterMap_const st 0 m2.match_id m2 hfind2 (by omega) _
      (fun p hp => by simpa using (List.mem_filter.mp hp).2)]
    rw [DotaDraft.joinRows_filterMap_const st 0 m3.match_id m3 hfind3 (by omega) _
      (fun p hp => by simpa using (List.mem_filter.mp hp).2)]
  have htake : (DotaDraft.joinRows st 0).take 20 =
      ((DotaDraft.sortPicks st.hero_picks).filter
        (fun p => decide (p.match_id = m1.match_id))).map
          (fun p => (⟨m1.match_id, m1.winner, p.hero, p.team⟩ : DotaDraft.Row)) ++
      ((DotaDraft.sortPicks st.hero_picks).filter
        (fun p => decide (p.match_id = m2.match_id))).map
          (fun p => (⟨m2.match_id, m2.winner, p.hero, p.team⟩ : DotaDraft.Row)) := by
    rw [hjoin, List.take_left']
    rw [List.length_append, List.length_map, List.length_map,
      hlen _ hc1, hlen _ hc2]
  have hgd : DotaDraft.getDrafts st 0 2 =
      ((DotaDraft.groupRows ((DotaDraft.joinRows st 0).take 20)).2,
       (DotaDraft.groupRows ((DotaDraft.joinRows st 0).take 20)).1.length,
       (DotaDraft.groupRows ((DotaDraft.joinRows st 0).take 20)).1) := by
    rfl
  have hx1 : ∀ r ∈ ((DotaDraft.sortPicks st.hero_picks).filter
      (fun p => decide (p.match_id = m1.match_id))).map
        (fun p => (⟨m1.match_id, m1.winner, p.hero, p.team⟩ : DotaDraft.Row)),
      r.match_id = m1.match_id := by
    intro r hr
    obtain ⟨p, -, rfl⟩ := List.mem_map.mp hr
    rfl
  have hx2 : ∀ r ∈ ((DotaDraft.sortPicks st.hero_picks).filter
      (fun p => decide (p.match_id = m2.match_id))).map
        (fun p => (⟨m2.match_id, m2.winner, p.hero, p.team⟩ : DotaDraft.Row)),
      r.match_id = m2.match_id := by
    intro r hr
    obtain ⟨p, -, rfl⟩ := List.mem_map.mp hr
    rfl
  have hne1 : ((DotaDraft.sortPicks st.hero_picks).filter
      (fun p => decide (p.match_id = m1.match_id))).map
        (fun p => (⟨m1.match_id, m1.winner, p.hero, p.team⟩ : DotaDraft.Row)) ≠ [] := by
    apply List.ne_nil_of_length_pos
    rw [List.length_map, hlen _ hc1]
    omega
  have hne2 : ((DotaDraft.sortPicks st.hero_picks).filter
      (fun p => decide (p.match_id = m2.match_id))).map
        (fun p => (⟨m2.match_id, m2.winner, p.hero, p.team⟩ : DotaDraft.Row)) ≠ [] := by
    apply List.ne_nil_of_length_pos
    rw [List.length_map, hlen _ hc2]
    omega
  have hkeys := DotaDraft.group_pair_keys _ _ m1.match_id m2.match_id (by omega)
    hne1 hne2 hx1 hx2
  rw [← htake] at hkeys
  refine ⟨?_, ?_, ?_⟩
  · rw [hgd]
    have := congrArg List.length hkeys
    simpa using this
  · rw [hgd]
    exact hkeys
  · rw [hgd]
    show (DotaDraft.groupRows ((DotaDraft.joinRows st 0).take 20)).2 = _
    unfold DotaDraft.groupRows
    rw [DotaDraft.groupRows_maxId]
    dsimp only
    rw [htake, List.foldl_append]
    rw [DotaDraft.foldl_max_const m1.match_id _ 0 hne1 hx1]
    rw [DotaDraft.foldl_max_const m2.match_id _ (max 0 m1.match_id) hne2 hx2]
    omega

namespace DotaDraft

/-- A concrete committed match row. -/
def demoMatch (id w : Int) : MatchRow :=
  ⟨id, 0, w, 1, 0, 0, 1, 0, none, none, none, none⟩

/-- Ten pick rows for one match: heroes 1-5 on team 0, 6-10 on team 1. -/
def demoPicks (id : Int) : List PickRow :=
  [⟨id, 0, 1⟩, ⟨id, 0, 2⟩, ⟨id, 0, 3⟩, ⟨id, 0, 4⟩, ⟨id, 0, 5⟩,
   ⟨id, 1, 6⟩, ⟨id, 1, 7⟩, ⟨id, 1, 8⟩, ⟨id, 1, 9⟩, ⟨id, 1, 10⟩]

/-- A store with exactly three committed matches (ids 10 < 20 < 30),
each with its 10 pick rows. -/
def demoStore : Store :=
  ⟨[demoMatch 10 1, demoMatch 20 0, demoMatch 30 1],
   demoPicks 10 ++ demoPicks 20 ++ demoPicks 30⟩

end DotaDraft

/-- C9 witness: the pagination theorem applied at the concrete 3-match
store with ids 10, 20, 30. -/
theorem C9_get_drafts_pagination_witness :
    (DotaDraft.getDrafts DotaDraft.demoStore 0 2).2.1 = 2 ∧
    (DotaDraft.getDrafts DotaDraft.demoStore 0 2).2.2.map Prod.fst =
      [(DotaDraft.demoMatch 10 1).match_id, (DotaDraft.demoMatch 20 0).match_id] ∧
    (DotaDraft.getDrafts DotaDraft.demoStore 0 2).1 =
      max (DotaDraft.demoMatch 10 1).match_id (DotaDraft.demoMatch 20 0).match_id :=
  C9_get_drafts_pagination (DotaDraft.demoMatch 10 1) (DotaDraft.demoMatch 20 0)
    (DotaDraft.demoMatch 30 1) DotaDraft.demoStore rfl (by decide) (by decide)
    (by decide) (by decide) (by decide) (by decide) (by decide)

namespace DotaDraft

theorem filter_const_team (id tv : Int) (hs : List Int) (t : Int) :
    (hs.map (fun h => (⟨id, tv, h⟩ : PickRow))).filter (fun p => decide (p.team = t)) =
      if tv = t then hs.map (fun h => (⟨id, tv, h⟩ : PickRow)) else [] := by
  by_cases h : tv = t
  · rw [if_pos h]
    apply List.filter_eq_self.mpr
    intro p hp
    obtain ⟨x, -, rfl⟩ := List.mem_map.mp hp
    simp [h]
  · rw [if_neg h]
    apply List.filter_eq_nil_iff.mpr
    intro p hp
    obtain ⟨x, -, rfl⟩ := List.mem_map.mp hp
    simp [h]

theorem filter_const_team_not (id tv : Int) (hs : List Int) (t : Int) :
    (hs.map (fun h => (⟨id, tv, h⟩ : PickRow))).filter (fun p => !decide (p.team = t)) =
      if tv = t then [] else hs.map (fun h => (⟨id, tv, h⟩ : PickRow)) := by
  by_cases h : tv = t
  · rw [if_pos h]
    apply List.filter_eq_nil_iff.mpr
    intro p hp
    obtain ⟨x, -, rfl⟩ := List.mem_map.mp hp
    simp [h]
  · rw [if_neg h]
    apply List.filter_eq_self.mpr
    intro p hp
    obtain ⟨x, -, rfl⟩ := List.mem_map.mp hp
    simp [h]

theorem map_hero_of_map (id tv : Int) (hs : List Int) :
    ((hs.map (fun h => (⟨id, tv, h⟩ : PickRow))).map (fun p => p.hero)) = hs := by
  rw [List.map_map]
  exact List.map_id hs

end DotaDraft

/-- C10 (amended): commit_game stores the record's dire_picks with
team = 0 and its radiant_picks with team = 1 — the inverse of the
player_slot top-bit encoding, where 1 means dire — and this is
self-consistent with winner = radiant_win in get_drafts: for every record
passing validation whose 10 hero IDs are pairwise distinct, a get_drafts
call covering its match_id returns exactly its match, with win_picks a
permutation of radiant_picks and loss_picks of dire_picks when
winner = 1, and the reverse when winner = 0.  (The distinctness proviso
is forced by the counterexample: with a hero on both sides the
(match_id, hero) key keeps only the later, radiant, row.) -/
theorem C10_team_encoding_roundtrip (g : DotaDraft.Game)
    (hv : DotaDraft.validGame g = true)
    (hnd : (g.dire_picks ++ g.radiant_picks).Nodup) :
    (∀ h ∈ g.dire_picks, (⟨g.match_id, 0, h⟩ : DotaDraft.PickRow) ∈
      ((DotaDraft.commitGame DotaDraft.emptyStore g).1).hero_picks) ∧
    (∀ h ∈ g.radiant_picks, (⟨g.match_id, 1, h⟩ : DotaDraft.PickRow) ∈
      ((DotaDraft.commitGame DotaDraft.emptyStore g).1).hero_picks) ∧
    (DotaDraft.getDrafts (DotaDraft.commitGame DotaDraft.emptyStore g).1 0 1).2.1 = 1 ∧
    ∃ d : DotaDraft.Draft,
      (DotaDraft.getDrafts (DotaDraft.commitGame DotaDraft.emptyStore g).1 0 1).2.2 =
        [(g.match_id, d)] ∧
      (g.winner = 1 → d.win_picks.Perm g.radiant_picks ∧ d.loss_picks.Perm g.dire_picks) ∧
      (g.winner = 0 → d.win_picks.Perm g.dire_picks ∧ d.loss_picks.Perm g.radiant_picks) := by
  classical
  have hfk : DotaDraft.FKOk DotaDraft.emptyStore := by
    intro p hp
    simp [DotaDraft.emptyStore] at hp
  have hps : ((DotaDraft.commitGame DotaDraft.emptyStore g).1).hero_picks =
      g.dire_picks.map (fun h => (⟨g.match_id, 0, h⟩ : DotaDraft.PickRow)) ++
      g.radiant_picks.map (fun h => (⟨g.match_id, 1, h⟩ : DotaDraft.PickRow)) := by
    rw [DotaDraft.commit_hero_picks_decomp DotaDraft.emptyStore g hv hfk hnd]
    simp [DotaDraft.emptyStore]
  have hmi : ((DotaDraft.commitGame DotaDraft.emptyStore g).1).match_info =
      [DotaDraft.rowOfGame g] := by
    rw [DotaDraft.commit_match_info DotaDraft.emptyStore g hv]
    simp [DotaDraft.insertOrReplaceMatch, DotaDraft.emptyStore]
  obtain ⟨hid0, hwin⟩ := DotaDraft.validGame_fields g hv
  obtain ⟨hlr, hld⟩ := DotaDraft.validGame_pick_lengths g hv
  set st := (DotaDraft.commitGame DotaDraft.emptyStore g).1 with hst
  have hall : ∀ p ∈ DotaDraft.sortPicks st.hero_picks, p.match_id = g.match_id := by
    intro p hp
    have hp' : p ∈ st.hero_picks :=
      (List.perm_insertionSort DotaDraft.pickKeyLe st.hero_picks).mem_iff.mp hp
    rw [hps] at hp'
    rcases List.mem_append.mp hp' with hp' | hp' <;>
      · obtain ⟨x, -, rfl⟩ := List.mem_map.mp hp'
        rfl
  have hfind : st.match_info.find? (fun m => decide (m.match_id = g.match_id)) =
      some (DotaDraft.rowOfGame g) := by
    rw [hmi, List.find?_cons_of_pos _ (by simp [DotaDraft.rowOfGame])]
  have hjoin : DotaDraft.joinRows st 0 =
      (DotaDraft.sortPicks st.hero_picks).map
        (fun p => (⟨g.match_id, (DotaDraft.rowOfGame g).winner, p.hero, p.team⟩ :
          DotaDraft.Row)) := by
    unfold DotaDraft.joinRows
    exact DotaDraft.joinRows_filterMap_const st 0 g.match_id (DotaDraft.rowOfGame g)
      hfind hid0 _ hall
  have hlenl : (DotaDraft.sortPicks st.hero_picks).length = 10 := by
    unfold DotaDraft.sortPicks
    rw [(List.perm_insertionSort DotaDraft.pickKeyLe st.hero_picks).length_eq, hps]
    simp [hlr, hld]
  have htake : (DotaDraft.joinRows st 0).take 10 = DotaDraft.joinRows st 0 := by
    apply List.take_of_length_le
    rw [hjoin, List.length_map, hlenl]
  have hgd : DotaDraft.getDrafts st 0 1 =
      ((DotaDraft.groupRows ((DotaDraft.joinRows st 0).take 10)).2,
       (DotaDraft.groupRows ((DotaDraft.joinRows st 0).take 10)).1.length,
       (DotaDraft.groupRows ((DotaDraft.joinRows st 0).take 10)).1) := rfl
  have hrowsne : DotaDraft.joinRows st 0 ≠ [] := by
    rw [hjoin]
    apply List.ne_nil_of_length_pos
    rw [List.length_map, hlenl]
    omega
  have hallrows : ∀ r ∈ DotaDraft.joinRows st 0, r.match_id = g.match_id := by
    rw [hjoin]
    intro r hr
    obtain ⟨p, -, rfl⟩ := List.mem_map.mp hr
    rfl
  have hgroup := DotaDraft.group_single g.match_id (DotaDraft.joinRows st 0)
    hrowsne hallrows
  have hperm2 : (DotaDraft.sortPicks st.hero_picks).Perm
      (g.dire_picks.map (fun h => (⟨g.match_id, 0, h⟩ : DotaDraft.PickRow)) ++
       g.radiant_picks.map (fun h => (⟨g.match_id, 1, h⟩ : DotaDraft.PickRow))) := by
    refine (List.perm_insertionSort DotaDraft.pickKeyLe st.hero_picks).trans ?_
    rw [hps]
  have hwin_eq : ((DotaDraft.joinRows st 0).filter
        (fun r => decide (r.team = r.winner))).map (fun r => r.hero) =
      ((DotaDraft.sortPicks st.hero_picks).filter
        (fun p => decide (p.team = g.winner))).map (fun p => p.hero) := by
    rw [hjoin, List.filter_map, List.map_map]
    rfl
  have hloss_eq : ((DotaDraft.joinRows st 0).filter
        (fun r => !decide (r.team = r.winner))).map (fun r => r.hero) =
      ((DotaDraft.sortPicks st.hero_picks).filter
        (fun p => !decide (p.team = g.winner))).map (fun p => p.hero) := by
    rw [hjoin, List.filter_map, List.map_map]
    rfl
  refine ⟨?_, ?_, ?_, ?_⟩
  · intro h hh
    rw [hps]
    exact List.mem_append_left _ (List.mem_map_of_mem _ hh)
  · intro h hh
    rw [hps]
    exact List.mem_append_right _ (List.mem_map_of_mem _ hh)
  · rw [hgd]
    show (DotaDraft.groupRows ((DotaDraft.joinRows st 0).take 10)).1.length = 1
    rw [htake, hgroup]
    rfl
  · refine ⟨⟨((DotaDraft.joinRows st 0).filter
        (fun r => decide (r.team = r.winner))).map (fun r => r.hero),
      ((DotaDraft.joinRows st 0).filter
        (fun r => !decide (r.team = r.winner))).map (fun r => r.hero)⟩, ?_, ?_, ?_⟩
    · rw [hgd]
      show (DotaDraft.groupRows ((DotaDraft.joinRows st 0).take 10)).1 = _
      rw [htake, hgroup]
    · intro hw1
      constructor
      · rw [hwin_eq]
        refine ((hperm2.filter _).map _).trans ?_
        rw [hw1, List.filter_append, DotaDraft.filter_const_team,
          DotaDraft.filter_const_team, if_neg (by omega), if_pos rfl,
          List.nil_append, DotaDraft.map_hero_of_map]
      · rw [hloss_eq]
        refine ((hperm2.filter _).map _).trans ?_
        rw [hw1, List.filter_append, DotaDraft.filter_const_team_not,
          DotaDraft.filter_const_team_not, if_neg (by omega), if_pos rfl,
          List.append_nil, DotaDraft.map_hero_of_map]
    · intro hw0
      constructor
      · rw [hwin_eq]
        refine ((hperm2.filter _).map _).trans ?_
        rw [hw0, List.filter_append, DotaDraft.filter_const_team,
          DotaDraft.filter_const_team, if_pos rfl, if_neg (by omega),
          List.append_nil, DotaDraft.map_hero_of_map]
      · rw [hloss_eq]
        refine ((hperm2.filter _).map _).trans ?_
        rw [hw0, List.filter_append, DotaDraft.filter_const_team_not,
          DotaDraft.filter_const_team_not, if_pos rfl, if_neg (by omega),
          List.nil_append, DotaDraft.map_hero_of_map]

/-- C10 counterexample: for the accepted record with hero 5 on both
sides (winner = 1), the later radiant INSERT OR REPLACE overwrites the
dire row for hero 5, so get_drafts returns loss_picks [6, 7, 8, 9] —
not a permutation of dire_picks [5, 6, 7, 8, 9]. -/
theorem C10_counterexample_duplicate_hero :
    DotaDraft.validGame DotaDraft.dupHeroGame = true ∧
    DotaDraft.dupHeroGame.winner = 1 ∧
    (DotaDraft.getDrafts
      (DotaDraft.commitGame DotaDraft.emptyStore DotaDraft.dupHeroGame).1 0 1).2.2 =
      [(1, ⟨[1, 2, 3, 4, 5], [6, 7, 8, 9]⟩)] ∧
    ¬ ([6, 7, 8, 9] : List Int).Perm DotaDraft.dupHeroGame.dire_picks := by
  decide

/-- C10 witness: the round-trip theorem applied at the concrete valid
record validGameA (winner 1, heroes 1-10 pairwise distinct). -/
theorem C10_team_encoding_roundtrip_witness :
    (∀ h ∈ DotaDraft.validGameA.dire_picks,
      (⟨DotaDraft.validGameA.match_id, 0, h⟩ : DotaDraft.PickRow) ∈
        ((DotaDraft.commitGame DotaDraft.emptyStore DotaDraft.validGameA).1).hero_picks) ∧
    (∀ h ∈ DotaDraft.validGameA.radiant_picks,
      (⟨DotaDraft.validGameA.match_id, 1, h⟩ : DotaDraft.PickRow) ∈
        ((DotaDraft.commitGame DotaDraft.emptyStore DotaDraft.validGameA).1).hero_picks) ∧
    (DotaDraft.getDrafts
      (DotaDraft.commitGame DotaDraft.emptyStore DotaDraft.validGameA).1 0 1).2.1 = 1 ∧
    ∃ d : DotaDraft.Draft,
      (DotaDraft.getDrafts
        (DotaDraft.commitGame DotaDraft.emptyStore DotaDraft.validGameA).1 0 1).2.2 =
        [(DotaDraft.validGameA.match_id, d)] ∧
      (DotaDraft.validGameA.winner = 1 →
        d.win_picks.Perm DotaDraft.validGameA.radiant_picks ∧
        d.loss_picks.Perm DotaDraft.validGameA.dire_picks) ∧
      (DotaDraft.validGameA.winner = 0 →
        d.win_picks.Perm DotaDraft.validGameA.dire_picks ∧
        d.loss_picks.Perm DotaDraft.validGameA.radiant_picks) :=
  C10_team_encoding_roundtrip DotaDraft.validGameA (by decide) (by decide)
